import Mathlib

/-!
Verification development for the account-erasure Cloudflare worker
(`src/worker.ts`).  The source file holds two successive versions of the
worker; we embed the first (lines 1-226) as `Worker.Impl1` and the second
(lines 227-406) as `Worker.Impl2`.

Modelling conventions:
* Backend state (Supabase tables, the R2 bucket, the auth user table) is an
  explicit `Store` record threaded through every operation.
* Every backend call appends an `Event` to a trace, so "no delete call was
  issued" is a statement about the trace.
* Backend failures that the Supabase client reports as returned `error`
  values, and R2 promise rejections, are injected through a `Faults` record;
  `noFault` is the healthy backend.
* Token verification (`supabase.auth.getUser`) is a function
  `tokenUser : String → Option String` in `World`; `none` covers both an
  `authError` and a missing user, which the handlers treat identically.
* `Except String` models a JavaScript exception escaping a function.
* The R2 `list` call returns at most one page of `pageSize` keys together
  with a truncation flag, mirroring the paginated R2 listing API (the real
  page limit is 1000; `pageSize` is a parameter of the model).
-/

namespace Worker

/-- Platform model: JavaScript `String.prototype.startsWith`,
character-wise. -/
def jsStartsWith (s p : String) : Bool := p.toList.isPrefixOf s.toList

/-- Platform model: JavaScript `String.prototype.toLowerCase`,
character-wise. -/
def jsToLower (s : String) : String := String.mk (s.toList.map Char.toLower)

/-- Split a character list at every occurrence of the separator character
(`"a b".split(' ')` semantics: empty groups are kept). -/
def splitCh (sep : Char) : List Char → List (List Char)
  | [] => [[]]
  | c :: rest =>
      let r := splitCh sep rest
      if c == sep then [] :: r
      else
        match r with
        | [] => [[c]]
        | g :: gs => (c :: g) :: gs

/-- Platform model: JavaScript `String.prototype.split` with a one-character
separator. -/
def jsSplit (s : String) (sep : Char) : List String :=
  (splitCh sep s.toList).map (fun cs => String.mk cs)

/-- `authHeader.split(' ')[1]` — the token part of a bearer header (the
guard guarantees a space exists, so index 1 is defined). -/
def bearerToken (h : String) : String := (jsSplit h ' ').getD 1 ""

/-- Split a character list around the first occurrence of a separator
substring; `none` when the separator does not occur. -/
def findSub (sep : List Char) : List Char → Option (List Char × List Char)
  | [] => if sep.isEmpty then some ([], []) else none
  | c :: cs =>
      if sep.isPrefixOf (c :: cs) then some ([], (c :: cs).drop sep.length)
      else
        match findSub sep cs with
        | none => none
        | some (pre, post) => some (c :: pre, post)

/-- Platform model (WHATWG `URL`): `urlPathname u` is `new URL(u).pathname`
for an absolute `scheme://authority/path` URL, and `none` models the
constructor throwing `TypeError` on a string with no scheme separator. -/
def urlPathname (url : String) : Option String :=
  match findSub "://".toList url.toList with
  | none => none
  | some (scheme, rest) =>
      if scheme.isEmpty ∨ rest.isEmpty then none
      else
        let path := rest.dropWhile (fun c => c != '/')
        some (String.mk (if path.isEmpty then ['/'] else path))

/-- Platform model: the regex replace `url.replace(/\.[^/.]+$/, "")` from
worker.ts line 103 — strip a final `.ext` where `ext` is one or more
characters none of which is `/` or `.`. -/
def stripLastExt (s : String) : String :=
  let rcs := s.toList.reverse
  let ext := rcs.takeWhile (fun c => c != '.' && c != '/')
  if ext.isEmpty then s
  else
    match rcs.drop ext.length with
    | '.' :: rest => String.mk rest.reverse
    | _ => s

/-- One backend call, as recorded in the execution trace. -/
inductive Event where
  | relSelect (table : String) (uid : String)
  | relDelete (table : String) (uid : String)
  | relDeleteById (table : String) (id : Nat)
  | r2List (pfx : String)
  | r2Delete (keys : List String)
  | authDelete (uid : String)
  | verifyTok (tok : String)
deriving DecidableEq, Repr

/-- Is this call a delete against any backend (relational, object store or
identity provider)?  Listing, selecting and token verification are reads. -/
def Event.isDeleteCall : Event → Bool
  | .relDelete _ _ => true
  | .relDeleteById _ _ => true
  | .r2Delete _ => true
  | .authDelete _ => true
  | _ => false

/-- Is this call the identity-provider record deletion? -/
def Event.isAuth : Event → Bool
  | .authDelete _ => true
  | _ => false

/-- A row of `replicate_predictions` (the columns the worker reads). -/
structure Prediction where
  id : Nat
  userId : String
  inputUrl : Option String
  outputUrl : Option (List String)
deriving DecidableEq, Repr

/-- A row of `replicate_trainings` (the columns the worker reads). -/
structure Training where
  id : Nat
  userId : String
  inputImages : String
deriving DecidableEq, Repr

/-- The combined backend state: the five relational tables (rows of
`push_tokens`, `user_credits` and `transactions` are reduced to their
`user_id` column, the only one the worker touches), the R2 bucket as a list
of object keys, and the identity provider's user table. -/
structure Store where
  predictions : List Prediction
  trainings : List Training
  pushTokens : List String
  userCredits : List String
  transactions : List String
  bucket : List String
  authUsers : List String
deriving DecidableEq, Repr

/-- Injected backend failures: `predSelect`/`trainSelect` make the two V1
row fetches return an `error`; the five `*Delete` flags make the matching
relational delete return an `error`; `r2List`/`r2Delete` make the R2 calls
reject; `authDelete` makes `auth.admin.deleteUser` return an `error`. -/
structure Faults where
  predSelect : Bool
  trainSelect : Bool
  predDelete : Bool
  trainDelete : Bool
  pushDelete : Bool
  creditsDelete : Bool
  transDelete : Bool
  r2List : Bool
  r2Delete : Bool
  authDelete : Bool
deriving DecidableEq, Repr

/-- All backends healthy. -/
def noFault : Faults :=
  ⟨false, false, false, false, false, false, false, false, false, false⟩

/-- The ambient collaborators: token verification, injected faults, and the
object-store listing page size. -/
structure World where
  tokenUser : String → Option String
  faults : Faults
  pageSize : Nat

/-- One page of `bucket.list({ prefix })`: the first `pageSize` keys with
the prefix, plus the truncation flag the store would report when more
remain. -/
def bucketList (pageSize : Nat) (bucket : List String) (pfx : String) :
    List String × Bool :=
  let ks := bucket.filter (fun k => jsStartsWith k pfx)
  (ks.take pageSize, decide (pageSize < ks.length))

/-- The parsed JSON body of the request: a syntactically malformed body
(`request.json()` throws), a well-formed body without a `user_id` field, or
a body carrying `user_id`. -/
inductive Body where
  | malformed
  | noUserId
  | userId (uid : String)
deriving DecidableEq, Repr

/-- An inbound HTTP request, reduced to the fields the worker reads. -/
structure Request where
  method : String
  authHeader : Option String
  body : Body
deriving Repr

/-- The V2 per-step report (`results` record, worker.ts lines 325-397);
every field holds the literal status string the code stores. -/
structure Results where
  predictions : String
  trainings : String
  pushToken : String
  credits : String
  transactions : String
  r2Folder : String
  auth : String
deriving DecidableEq, Repr

/-- A step outcome the spec counts as non-failing: `Success` or the
"nothing to delete" annotation. -/
def stepOk (x : String) : Prop := x = "success" ∨ x = "no files found"

/-- All seven steps of a V2 report are `Success` or "nothing to delete". -/
def Results.allOk (r : Results) : Prop :=
  stepOk r.predictions ∧ stepOk r.trainings ∧ stepOk r.pushToken ∧
  stepOk r.credits ∧ stepOk r.transactions ∧ stepOk r.r2Folder ∧
  stepOk r.auth

/-- V2 step 5 (worker.ts lines 378-391): list one page of the user's
R2 prefix and delete the returned keys via `Promise.all`; a rejection of
either call is caught and recorded as `'error'`; an empty listing records
`'no files found'`. -/
def Impl2.r2Step (w : World) (uid : String) (s : Store) :
    String × Store × List Event :=
  let pfx := uid ++ "/"
  if w.faults.r2List then ("error", s, [Event.r2List pfx])
  else
    let page := (bucketList w.pageSize s.bucket pfx).1
    if 0 < page.length then
      if w.faults.r2Delete then
        ("error", s, Event.r2List pfx :: page.map (fun k => Event.r2Delete [k]))
      else
        ("success",
         { s with bucket := s.bucket.filter (fun k => !(page.contains k)) },
         Event.r2List pfx :: page.map (fun k => Event.r2Delete [k]))
    else ("no files found", s, [Event.r2List pfx])

/-- V2 steps 1-4 (worker.ts lines 328-374): the five equality-filtered
relational deletes, applied to the state (a failed delete leaves its table
untouched). -/
def Impl2.relStage (f : Faults) (uid : String) (s : Store) : Store :=
  let s1 := if f.predDelete then s else
    { s with predictions := s.predictions.filter (fun p => !(p.userId == uid)) }
  let s2 := if f.trainDelete then s1 else
    { s1 with trainings := s1.trainings.filter (fun t => !(t.userId == uid)) }
  let s3 := if f.pushDelete then s2 else
    { s2 with pushTokens := s2.pushTokens.filter (fun u => !(u == uid)) }
  let s4 := if f.creditsDelete then s3 else
    { s3 with userCredits := s3.userCredits.filter (fun u => !(u == uid)) }
  if f.transDelete then s4 else
    { s4 with transactions := s4.transactions.filter (fun u => !(u == uid)) }

/-- V2 `deleteUserData` (worker.ts lines 319-406): five relational deletes,
the R2 prefix step, then the identity-provider deletion; each relational or
auth failure is recorded in `results` as `'error'` and execution continues.
The outer `try/catch` of the source is unreachable here because no modelled
call throws outside the inner R2 `try`. -/
def Impl2.deleteUserData (uid : String) (w : World) (s : Store) :
    Results × Store × List Event :=
  let f := w.faults
  let s5 := Impl2.relStage f uid s
  let r2 := Impl2.r2Step w uid s5
  let s6 := r2.2.1
  let s7 := if f.authDelete then s6 else
    { s6 with authUsers := s6.authUsers.filter (fun u => !(u == uid)) }
  ({ predictions := if f.predDelete then "error" else "success",
     trainings := if f.trainDelete then "error" else "success",
     pushToken := if f.pushDelete then "error" else "success",
     credits := if f.creditsDelete then "error" else "success",
     transactions := if f.transDelete then "error" else "success",
     r2Folder := r2.1,
     auth := if f.authDelete then "error" else "success" },
   s7,
   [Event.relDelete "replicate_predictions" uid,
    Event.relDelete "replicate_trainings" uid,
    Event.relDelete "push_tokens" uid,
    Event.relDelete "user_credits" uid,
    Event.relDelete "transactions" uid] ++ r2.2.2 ++ [Event.authDelete uid])

/-- V2 `fetch` handler (worker.ts lines 244-317).  Note the order inside the
`try` block: `request.json()` runs before `supabase.auth.getUser`, so a
malformed body reaches the catch-all 500 without any token verification. -/
def Impl2.fetch (req : Request) (w : World) (s : Store) :
    Nat × Store × List Event :=
  if req.method ≠ "POST" then (405, s, [])
  else
    match req.authHeader with
    | none => (401, s, [])
    | some h =>
      if jsStartsWith h "Bearer " = false then (401, s, [])
      else
        match req.body with
        | Body.malformed => (500, s, [])
        | Body.noUserId =>
          let token := bearerToken h
          match w.tokenUser token with
          | none => (401, s, [Event.verifyTok token])
          | some _ => (500, s, [Event.verifyTok token])
        | Body.userId uid =>
          let token := bearerToken h
          match w.tokenUser token with
          | none => (401, s, [Event.verifyTok token])
          | some vid =>
            if jsToLower uid ≠ jsToLower vid then (403, s, [Event.verifyTok token])
            else
              let r := Impl2.deleteUserData (jsToLower uid) w s
              (200, r.2.1, Event.verifyTok token :: r.2.2)

/-- Sequencing for V1 helpers: run the second computation only when the
first completed normally; a thrown exception short-circuits, keeping the
state and trace accumulated so far. -/
def seqE (r : Except String Unit × Store × List Event)
    (k : Store → Except String Unit × Store × List Event) :
    Except String Unit × Store × List Event :=
  match r with
  | (Except.error e, s, t) => (Except.error e, s, t)
  | (Except.ok _, s, t) =>
      let r2 := k s
      (r2.1, r2.2.1, t ++ r2.2.2)

/-- V1 `deleteR2Object` (worker.ts lines 207-215): `new URL(url)` sits
outside the `try`, so an unparseable URL throws out of the function; the
`bucket.delete` rejection inside the `try` is caught and only logged. -/
def Impl1.deleteR2Object (fault : Bool) (url : String) (s : Store) :
    Except String Unit × Store × List Event :=
  match urlPathname url with
  | none => (Except.error "TypeError: Invalid URL", s, [])
  | some p =>
      let key := p.drop 1
      if fault then (Except.ok (), s, [Event.r2Delete [key]])
      else (Except.ok (),
            { s with bucket := s.bucket.filter (fun k => !(k == key)) },
            [Event.r2Delete [key]])

/-- V1: the loop over a prediction's `output_url` array (worker.ts lines
105-109). -/
def Impl1.delR2List (fault : Bool) : List String → Store →
    Except String Unit × Store × List Event
  | [], s => (Except.ok (), s, [])
  | u :: rest, s => seqE (Impl1.deleteR2Object fault u s) (Impl1.delR2List fault rest)

/-- V1: the body of the per-prediction loop (worker.ts lines 99-120):
delete the input image and its derived `_mask.png`, the output images, then
the row itself (a returned delete `error` is logged and ignored). -/
def Impl1.delPredRow (w : World) (p : Prediction) (s : Store) :
    Except String Unit × Store × List Event :=
  let step1 :=
    match p.inputUrl with
    | none => (Except.ok (), s, ([] : List Event))
    | some u =>
        seqE (Impl1.deleteR2Object w.faults.r2Delete u s) (fun s1 =>
          Impl1.deleteR2Object w.faults.r2Delete (stripLastExt u ++ "_mask.png") s1)
  seqE step1 (fun s1 =>
    let step2 :=
      match p.outputUrl with
      | none => (Except.ok (), s1, ([] : List Event))
      | some urls => Impl1.delR2List w.faults.r2Delete urls s1
    seqE step2 (fun s2 =>
      if w.faults.predDelete then
        (Except.ok (), s2, [Event.relDeleteById "replicate_predictions" p.id])
      else
        (Except.ok (),
         { s2 with predictions := s2.predictions.filter (fun q => !(q.id == p.id)) },
         [Event.relDeleteById "replicate_predictions" p.id])))

/-- V1: the loop over all fetched predictions. -/
def Impl1.predLoop (w : World) : List Prediction → Store →
    Except String Unit × Store × List Event
  | [], s => (Except.ok (), s, [])
  | p :: rest, s => seqE (Impl1.delPredRow w p s) (Impl1.predLoop w rest)

/-- V1 `deletePredictions` (worker.ts lines 88-123): fetch the user's
prediction rows (a returned fetch `error` aborts the step without a throw),
then run the per-row deletion loop. -/
def Impl1.deletePredictions (w : World) (uid : String) (s : Store) :
    Except String Unit × Store × List Event :=
  let ev := Event.relSelect "replicate_predictions" uid
  if w.faults.predSelect then (Except.ok (), s, [ev])
  else
    let rows := s.predictions.filter (fun p => p.userId == uid)
    let r := Impl1.predLoop w rows s
    (r.1, r.2.1, ev :: r.2.2)

/-- V1: the body of the per-training loop (worker.ts lines 136-149):
delete the input-images object, then the row itself. -/
def Impl1.delTrainRow (w : World) (t : Training) (s : Store) :
    Except String Unit × Store × List Event :=
  seqE (Impl1.deleteR2Object w.faults.r2Delete t.inputImages s) (fun s1 =>
    if w.faults.trainDelete then
      (Except.ok (), s1, [Event.relDeleteById "replicate_trainings" t.id])
    else
      (Except.ok (),
       { s1 with trainings := s1.trainings.filter (fun q => !(q.id == t.id)) },
       [Event.relDeleteById "replicate_trainings" t.id]))

/-- V1: the loop over all fetched trainings. -/
def Impl1.trainLoop (w : World) : List Training → Store →
    Except String Unit × Store × List Event
  | [], s => (Except.ok (), s, [])
  | t :: rest, s => seqE (Impl1.delTrainRow w t s) (Impl1.trainLoop w rest)

/-- V1 `deleteTrainings` (worker.ts lines 125-152). -/
def Impl1.deleteTrainings (w : World) (uid : String) (s : Store) :
    Except String Unit × Store × List Event :=
  let ev := Event.relSelect "replicate_trainings" uid
  if w.faults.trainSelect then (Except.ok (), s, [ev])
  else
    let rows := s.trainings.filter (fun t => t.userId == uid)
    let r := Impl1.trainLoop w rows s
    (r.1, r.2.1, ev :: r.2.2)

/-- V1 `deletePushToken` (worker.ts lines 154-165): a returned `error` is
only logged. -/
def Impl1.deletePushToken (w : World) (uid : String) (s : Store) :
    Except String Unit × Store × List Event :=
  let s1 := if w.faults.pushDelete then s else
    { s with pushTokens := s.pushTokens.filter (fun u => !(u == uid)) }
  (Except.ok (), s1, [Event.relDelete "push_tokens" uid])

/-- V1 `deleteCoinsAndTransactions` (worker.ts lines 167-191). -/
def Impl1.deleteCoinsAndTransactions (w : World) (uid : String) (s : Store) :
    Except String Unit × Store × List Event :=
  let s1 := if w.faults.creditsDelete then s else
    { s with userCredits := s.userCredits.filter (fun u => !(u == uid)) }
  let s2 := if w.faults.transDelete then s1 else
    { s1 with transactions := s1.transactions.filter (fun u => !(u == uid)) }
  (Except.ok (), s2,
   [Event.relDelete "user_credits" uid, Event.relDelete "transactions" uid])

/-- V1 `deleteUserFolder` (worker.ts lines 193-205): a single un-paginated
`list`, then one batch `delete` of the returned page; everything is inside
a `try`, so rejections are caught and only logged. -/
def Impl1.deleteUserFolder (w : World) (uid : String) (s : Store) :
    Except String Unit × Store × List Event :=
  let pfx := uid ++ "/"
  if w.faults.r2List then (Except.ok (), s, [Event.r2List pfx])
  else
    let page := (bucketList w.pageSize s.bucket pfx).1
    if 0 < page.length then
      if w.faults.r2Delete then
        (Except.ok (), s, [Event.r2List pfx, Event.r2Delete page])
      else
        (Except.ok (),
         { s with bucket := s.bucket.filter (fun k => !(page.contains k)) },
         [Event.r2List pfx, Event.r2Delete page])
    else (Except.ok (), s, [Event.r2List pfx])

/-- V1 `deleteUserAuth` (worker.ts lines 217-226): a returned `error` is
only logged. -/
def Impl1.deleteUserAuth (w : World) (uid : String) (s : Store) :
    Except String Unit × Store × List Event :=
  if w.faults.authDelete then (Except.ok (), s, [Event.authDelete uid])
  else
    (Except.ok (),
     { s with authUsers := s.authUsers.filter (fun u => !(u == uid)) },
     [Event.authDelete uid])

/-- V1 `deleteUserData` (worker.ts lines 63-86): the six steps in source
order; an exception thrown by any step (only an unparseable stored URL can
throw) propagates to the handler's `catch`. -/
def Impl1.deleteUserData (uid : String) (w : World) (s : Store) :
    Except String Unit × Store × List Event :=
  seqE (Impl1.deletePredictions w uid s) (fun sa =>
  seqE (Impl1.deleteTrainings w uid sa) (fun sb =>
  seqE (Impl1.deletePushToken w uid sb) (fun sc =>
  seqE (Impl1.deleteCoinsAndTransactions w uid sc) (fun sd =>
  seqE (Impl1.deleteUserFolder w uid sd) (fun se =>
  Impl1.deleteUserAuth w uid se)))))

/-- V1 `fetch` handler (worker.ts lines 10-61).  `request.json()` runs only
after token verification; an `Except.error` result models an exception
escaping the handler itself (the runtime's error page), while the
`try/catch` around `deleteUserData` converts a pipeline throw into 500. -/
def Impl1.fetch (req : Request) (w : World) (s : Store) :
    Except String Nat × Store × List Event :=
  if req.method ≠ "POST" then (Except.ok 405, s, [])
  else
    match req.authHeader with
    | none => (Except.ok 401, s, [])
    | some h =>
      if h = "" ∨ jsStartsWith h "Bearer " = false then (Except.ok 401, s, [])
      else
        let token := bearerToken h
        match w.tokenUser token with
        | none => (Except.ok 401, s, [Event.verifyTok token])
        | some vid =>
          match req.body with
          | Body.malformed =>
              (Except.error "SyntaxError: Unexpected token", s, [Event.verifyTok token])
          | Body.noUserId => (Except.ok 403, s, [Event.verifyTok token])
          | Body.userId uid =>
            if uid = "" ∨ jsToLower uid ≠ jsToLower vid then
              (Except.ok 403, s, [Event.verifyTok token])
            else
              let r := Impl1.deleteUserData (jsToLower uid) w s
              match r.1 with
              | Except.ok _ => (Except.ok 200, r.2.1, Event.verifyTok token :: r.2.2)
              | Except.error _ => (Except.ok 500, r.2.1, Event.verifyTok token :: r.2.2)

/-- Modelled from the spec: the ObjectPrefixEraser pagination loop, which
is absent from src (`deleteUserFolder` and V2 step 5 issue a single `list`
call).  Spec §4.4: "list objects under the prefix, page by page, until the
store reports the listing is complete (no further continuation token);
collect all returned keys".  The continuation token is the cursor position;
`fuel` bounds the recursion and is chosen large enough to exhaust the
listing. -/
def specCollectKeys (pageSize : Nat) (keys : List String) :
    Nat → Nat → List String
  | 0, _ => []
  | Nat.succ fuel, cursor =>
      let page := (keys.drop cursor).take pageSize
      if cursor + pageSize < keys.length then
        page ++ specCollectKeys pageSize keys fuel (cursor + pageSize)
      else page

/-- Modelled from the spec: the full ObjectPrefixEraser step — collect all
keys under the prefix across every page, then delete all collected keys.
Returns the bucket contents after the erasure. -/
def specEraseAll (pageSize : Nat) (bucket : List String) (pfx : String) :
    List String :=
  let ks := bucket.filter (fun k => jsStartsWith k pfx)
  let collected := specCollectKeys pageSize ks (ks.length + 1) 0
  bucket.filter (fun k => !(collected.contains k))

/-- An entirely empty backend. -/
def emptyStore : Store := ⟨[], [], [], [], [], [], []⟩

/-- A backend whose bucket holds two keys under `u/` plus an unrelated key:
with `pageSize = 1` the namespace spans two listing pages. -/
def pagedStore : Store := ⟨[], [], [], [], [], ["u/a.png", "u/b.png", "other"], ["u"]⟩

/-- A backend holding one prediction row whose stored `input_url` is not a
parseable URL. -/
def badUrlStore : Store := ⟨[⟨1, "u", some "not-a-url", none⟩], [], [], [], [], [], ["u"]⟩

/-- Healthy world where no token verifies; page size 1000 (the real R2
limit). -/
def plainWorld : World := ⟨fun _ => none, noFault, 1000⟩

/-- Healthy world where no token verifies and a listing page holds a single
key. -/
def pagedWorld : World := ⟨fun _ => none, noFault, 1⟩

/-- Healthy world where token `"tok"` verifies to identity `"u"`. -/
def tokWorld : World := ⟨fun t => if t = "tok" then some "u" else none, noFault, 1000⟩

/-- Healthy world where token `"tok"` verifies to identity `"abc-123"`. -/
def caseWorld : World :=
  ⟨fun t => if t = "tok" then some "abc-123" else none, noFault, 1000⟩

/-- Healthy world where token `"tok"` verifies to the empty identity id. -/
def emptyIdWorld : World := ⟨fun t => if t = "tok" then some "" else none, noFault, 1000⟩

/-- World where the `replicate_predictions` delete of V2 returns an error
and every other backend call succeeds. -/
def predFaultWorld : World :=
  ⟨fun t => if t = "tok" then some "u" else none,
   { noFault with predDelete := true }, 1000⟩

/-! ## Helper lemmas -/

/-- `seqE` always keeps the first computation's trace as a prefix. -/
theorem seqE_trace (r : Except String Unit × Store × List Event)
    (k : Store → Except String Unit × Store × List Event) :
    ∃ t, (seqE r k).2.2 = r.2.2 ++ t := by
  rcases r with ⟨r1, s1, t1⟩
  cases r1 with
  | error e => exact ⟨[], (List.append_nil t1).symm⟩
  | ok v => exact ⟨(k s1).2.2, rfl⟩

/-- V1 `deletePredictions` always issues the row fetch first. -/
theorem deletePredictions_trace_head (w : World) (uid : String) (s : Store) :
    ∃ t, (Impl1.deletePredictions w uid s).2.2 =
      Event.relSelect "replicate_predictions" uid :: t := by
  unfold Impl1.deletePredictions
  split
  · exact ⟨[], rfl⟩
  · exact ⟨_, rfl⟩

/-- V1 `deleteTrainings` always issues the row fetch first. -/
theorem deleteTrainings_trace_head (w : World) (uid : String) (s : Store) :
    ∃ t, (Impl1.deleteTrainings w uid s).2.2 =
      Event.relSelect "replicate_trainings" uid :: t := by
  unfold Impl1.deleteTrainings
  split
  · exact ⟨[], rfl⟩
  · exact ⟨_, rfl⟩

/-- The V2 R2 step always issues the listing call first. -/
theorem r2Step_trace_head (w : World) (uid : String) (s : Store) :
    ∃ t, (Impl2.r2Step w uid s).2.2 = Event.r2List (uid ++ "/") :: t := by
  unfold Impl2.r2Step
  dsimp only
  split
  · exact ⟨[], rfl⟩
  · split
    · split
      · exact ⟨_, rfl⟩
      · exact ⟨_, rfl⟩
    · exact ⟨[], rfl⟩

/-- The V2 R2 step never calls the identity provider. -/
theorem r2Step_noAuth (w : World) (uid : String) (s : Store) :
    ((Impl2.r2Step w uid s).2.2).all (fun e => !e.isAuth) = true := by
  unfold Impl2.r2Step
  dsimp only
  split
  · rfl
  · split
    · split <;>
        · simp only [List.all_cons, Bool.and_eq_true, List.all_eq_true, List.mem_map]
          refine ⟨rfl, ?_⟩
          rintro e ⟨k, hk, rfl⟩
          rfl
    · rfl

/-- V1 `deleteUserData` always issues the predictions fetch, wherever the
pipeline later stops. -/
theorem deleteUserData1_select_mem (w : World) (uid : String) (s : Store) :
    Event.relSelect "replicate_predictions" uid ∈ (Impl1.deleteUserData uid w s).2.2 := by
  unfold Impl1.deleteUserData
  obtain ⟨t, ht⟩ := seqE_trace (Impl1.deletePredictions w uid s) _
  rw [ht]
  obtain ⟨t2, ht2⟩ := deletePredictions_trace_head w uid s
  rw [ht2]
  simp

/-- The relational stage of V2 never touches the bucket. -/
theorem relStage_bucket (f : Faults) (uid : String) (s : Store) :
    (Impl2.relStage f uid s).bucket = s.bucket := by
  unfold Impl2.relStage
  dsimp only
  split <;> split <;> split <;> split <;> split <;> rfl

/-- The relational stage of V2 never touches the auth-user table. -/
theorem relStage_authUsers (f : Faults) (uid : String) (s : Store) :
    (Impl2.relStage f uid s).authUsers = s.authUsers := by
  unfold Impl2.relStage
  dsimp only
  split <;> split <;> split <;> split <;> split <;> rfl

/-- When the listing succeeds and the prefix is empty, the V2 R2 step
records the "nothing to delete" annotation and changes nothing. -/
theorem r2Step_nothing (w : World) (uid : String) (s : Store)
    (hl : w.faults.r2List = false)
    (hk : s.bucket.filter (fun k => jsStartsWith k (uid ++ "/")) = []) :
    Impl2.r2Step w uid s = ("no files found", s, [Event.r2List (uid ++ "/")]) := by
  unfold Impl2.r2Step bucketList
  simp [hl, hk]

/-- With healthy R2 backends the V2 R2 step records `success` or the
"nothing to delete" annotation, never an error. -/
theorem r2Step_ok_noFault (w : World) (uid : String) (s : Store)
    (hl : w.faults.r2List = false) (hd : w.faults.r2Delete = false) :
    stepOk (Impl2.r2Step w uid s).1 := by
  unfold Impl2.r2Step
  simp only [hl, hd, Bool.false_eq_true, if_false]
  split
  · exact Or.inl rfl
  · exact Or.inr rfl

/-- The V2 pipeline always issues the predictions-table delete. -/
theorem deleteUserData2_pred_mem (uid : String) (w : World) (s : Store) :
    Event.relDelete "replicate_predictions" uid ∈ (Impl2.deleteUserData uid w s).2.2 := by
  unfold Impl2.deleteUserData
  simp

/-- A trace predicate survives `seqE` sequencing. -/
theorem seqE_all (P : Event → Bool) (r : Except String Unit × Store × List Event)
    (k : Store → Except String Unit × Store × List Event)
    (h1 : (r.2.2.all P) = true) (h2 : ∀ t, (((k t).2.2).all P) = true) :
    (((seqE r k).2.2).all P) = true := by
  rcases r with ⟨r1, s1, t1⟩
  cases r1 with
  | error e => exact h1
  | ok v => simp only [seqE, List.all_append, Bool.and_eq_true]; exact ⟨h1, h2 s1⟩

/-- V1 `deleteR2Object` never calls the identity provider. -/
theorem deleteR2Object_noAuth (fault : Bool) (url : String) (s : Store) :
    (((Impl1.deleteR2Object fault url s).2.2).all (fun e => !e.isAuth)) = true := by
  unfold Impl1.deleteR2Object
  split
  · rfl
  · split <;> rfl

/-- The V1 output-image loop never calls the identity provider. -/
theorem delR2List_noAuth (fault : Bool) (urls : List String) (s : Store) :
    (((Impl1.delR2List fault urls s).2.2).all (fun e => !e.isAuth)) = true := by
  induction urls generalizing s with
  | nil => rfl
  | cons u rest ih =>
      exact seqE_all _ _ _ (deleteR2Object_noAuth fault u s) (fun t => ih t)

/-- The V1 per-prediction body never calls the identity provider. -/
theorem delPredRow_noAuth (w : World) (p : Prediction) (s : Store) :
    (((Impl1.delPredRow w p s).2.2).all (fun e => !e.isAuth)) = true := by
  unfold Impl1.delPredRow
  dsimp only
  apply seqE_all
  · cases p.inputUrl with
    | none => rfl
    | some u =>
        exact seqE_all _ _ _ (deleteR2Object_noAuth w.faults.r2Delete u s)
          (fun t => deleteR2Object_noAuth w.faults.r2Delete _ t)
  · intro t
    apply seqE_all
    · cases p.outputUrl with
      | none => rfl
      | some urls => exact delR2List_noAuth w.faults.r2Delete urls t
    · intro t2
      split <;> rfl

/-- The V1 predictions loop never calls the identity provider. -/
theorem predLoop_noAuth (w : World) (rows : List Prediction) (s : Store) :
    (((Impl1.predLoop w rows s).2.2).all (fun e => !e.isAuth)) = true := by
  induction rows generalizing s with
  | nil => rfl
  | cons p rest ih =>
      exact seqE_all _ _ _ (delPredRow_noAuth w p s) (fun t => ih t)

/-- V1 `deletePredictions` never calls the identity provider. -/
theorem deletePredictions_noAuth (w : World) (uid : String) (s : Store) :
    (((Impl1.deletePredictions w uid s).2.2).all (fun e => !e.isAuth)) = true := by
  unfold Impl1.deletePredictions
  dsimp only
  split
  · rfl
  · simp only [List.all_cons, Bool.and_eq_true]
    exact ⟨rfl, predLoop_noAuth w _ s⟩

/-- The V1 per-training body never calls the identity provider. -/
theorem delTrainRow_noAuth (w : World) (t : Training) (s : Store) :
    (((Impl1.delTrainRow w t s).2.2).all (fun e => !e.isAuth)) = true := by
  unfold Impl1.delTrainRow
  apply seqE_all
  · exact deleteR2Object_noAuth w.faults.r2Delete t.inputImages s
  · intro t2
    split <;> rfl

/-- The V1 trainings loop never calls the identity provider. -/
theorem trainLoop_noAuth (w : World) (rows : List Training) (s : Store) :
    (((Impl1.trainLoop w rows s).2.2).all (fun e => !e.isAuth)) = true := by
  induction rows generalizing s with
  | nil => rfl
  | cons t rest ih =>
      exact seqE_all _ _ _ (delTrainRow_noAuth w t s) (fun u => ih u)

/-- V1 `deleteTrainings` never calls the identity provider. -/
theorem deleteTrainings_noAuth (w : World) (uid : String) (s : Store) :
    (((Impl1.deleteTrainings w uid s).2.2).all (fun e => !e.isAuth)) = true := by
  unfold Impl1.deleteTrainings
  dsimp only
  split
  · rfl
  · simp only [List.all_cons, Bool.and_eq_true]
    exact ⟨rfl, trainLoop_noAuth w _ s⟩

/-- V1 `deletePushToken` always completes normally with exactly the one
relational delete call. -/
theorem deletePushToken_eq (w : World) (uid : String) (s : Store) :
    ∃ t : Store, Impl1.deletePushToken w uid s =
      (Except.ok (), t, [Event.relDelete "push_tokens" uid]) := by
  unfold Impl1.deletePushToken
  exact ⟨_, rfl⟩

/-- V1 `deleteCoinsAndTransactions` always completes normally with exactly
the two relational delete calls. -/
theorem deleteCoins_eq (w : World) (uid : String) (s : Store) :
    ∃ t : Store, Impl1.deleteCoinsAndTransactions w uid s =
      (Except.ok (), t,
       [Event.relDelete "user_credits" uid, Event.relDelete "transactions" uid]) := by
  unfold Impl1.deleteCoinsAndTransactions
  exact ⟨_, rfl⟩

/-- V1 `deleteUserFolder` always completes normally, issues the listing
call, and never calls the identity provider. -/
theorem deleteUserFolder_eq (w : World) (uid : String) (s : Store) :
    ∃ (t : Store) (tr : List Event), Impl1.deleteUserFolder w uid s = (Except.ok (), t, tr) ∧
      (tr.all (fun e => !e.isAuth)) = true ∧ Event.r2List (uid ++ "/") ∈ tr := by
  unfold Impl1.deleteUserFolder
  dsimp only
  split
  · exact ⟨_, _, rfl, rfl, by simp⟩
  · split
    · split
      · exact ⟨_, _, rfl, rfl, by simp⟩
      · exact ⟨_, _, rfl, rfl, by simp⟩
    · exact ⟨_, _, rfl, rfl, by simp⟩

/-- V1 `deleteUserAuth` always completes normally with exactly the one
identity-provider call. -/
theorem deleteUserAuth_eq (w : World) (uid : String) (s : Store) :
    ∃ t : Store, Impl1.deleteUserAuth w uid s =
      (Except.ok (), t, [Event.authDelete uid]) := by
  unfold Impl1.deleteUserAuth
  split
  · exact ⟨_, rfl⟩
  · exact ⟨_, rfl⟩

/-- V1 `deleteUserData`: on normal completion the identity-provider call is
the last event of the trace, preceded by every other step's characteristic
call; on a thrown exception the identity provider was never called. -/
theorem deleteUserData1_auth_last (uid : String) (w : World) (s : Store) :
    ((Impl1.deleteUserData uid w s).1 = Except.ok () →
      ∃ pre, (Impl1.deleteUserData uid w s).2.2 = pre ++ [Event.authDelete uid] ∧
        (pre.all (fun e => !e.isAuth)) = true ∧
        Event.relSelect "replicate_predictions" uid ∈ pre ∧
        Event.relSelect "replicate_trainings" uid ∈ pre ∧
        Event.relDelete "push_tokens" uid ∈ pre ∧
        Event.relDelete "user_credits" uid ∈ pre ∧
        Event.relDelete "transactions" uid ∈ pre ∧
        Event.r2List (uid ++ "/") ∈ pre) ∧
    (∀ e, (Impl1.deleteUserData uid w s).1 = Except.error e →
      (((Impl1.deleteUserData uid w s).2.2).all (fun x => !x.isAuth)) = true) := by
  rcases h1 : Impl1.deletePredictions w uid s with ⟨r1, s1, t1⟩
  have ht1 : (t1.all (fun e => !e.isAuth)) = true := by
    have hh := deletePredictions_noAuth w uid s
    rw [h1] at hh
    exact hh
  have hsel1 : ∃ tt, t1 = Event.relSelect "replicate_predictions" uid :: tt := by
    obtain ⟨tt, htt⟩ := deletePredictions_trace_head w uid s
    rw [h1] at htt
    exact ⟨tt, htt⟩
  cases r1 with
  | error e1 =>
      have hDU : Impl1.deleteUserData uid w s = (Except.error e1, s1, t1) := by
        unfold Impl1.deleteUserData
        rw [h1]
        rfl
      constructor
      · intro hok
        rw [hDU] at hok
        exact absurd hok (by simp)
      · intro e herr
        rw [hDU]
        exact ht1
  | ok v1 =>
      cases v1
      rcases h2 : Impl1.deleteTrainings w uid s1 with ⟨r2, s2, t2⟩
      have ht2 : (t2.all (fun e => !e.isAuth)) = true := by
        have hh := deleteTrainings_noAuth w uid s1
        rw [h2] at hh
        exact hh
      have hsel2 : ∃ tt, t2 = Event.relSelect "replicate_trainings" uid :: tt := by
        obtain ⟨tt, htt⟩ := deleteTrainings_trace_head w uid s1
        rw [h2] at htt
        exact ⟨tt, htt⟩
      cases r2 with
      | error e2 =>
          have hDU : Impl1.deleteUserData uid w s = (Except.error e2, s2, t1 ++ t2) := by
            unfold Impl1.deleteUserData
            rw [h1]
            simp only [seqE]
            rw [h2]
          constructor
          · intro hok
            rw [hDU] at hok
            exact absurd hok (by simp)
          · intro e herr
            rw [hDU]
            simp only [List.all_append, Bool.and_eq_true]
            exact ⟨ht1, ht2⟩
      | ok v2 =>
          cases v2
          obtain ⟨s3, h3⟩ := deletePushToken_eq w uid s2
          obtain ⟨s4, h4⟩ := deleteCoins_eq w uid s3
          obtain ⟨s5, t5, h5, h5a, h5m⟩ := deleteUserFolder_eq w uid s4
          obtain ⟨s6, h6⟩ := deleteUserAuth_eq w uid s5
          have hDU : Impl1.deleteUserData uid w s =
              (Except.ok (), s6,
               t1 ++ (t2 ++ ([Event.relDelete "push_tokens" uid] ++
                 ([Event.relDelete "user_credits" uid,
                   Event.relDelete "transactions" uid] ++
                  (t5 ++ [Event.authDelete uid]))))) := by
            unfold Impl1.deleteUserData
            rw [h1]
            simp only [seqE]
            rw [h2]
            simp only [seqE]
            rw [h3]
            simp only [seqE]
            rw [h4]
            simp only [seqE]
            rw [h5]
            simp only [seqE]
            rw [h6]
          constructor
          · intro _
            refine ⟨t1 ++ (t2 ++ ([Event.relDelete "push_tokens" uid] ++
              ([Event.relDelete "user_credits" uid,
                Event.relDelete "transactions" uid] ++ t5))), ?_, ?_, ?_, ?_, ?_, ?_, ?_, ?_⟩
            · rw [hDU]
              simp [List.append_assoc]
            · simp only [List.all_append, Bool.and_eq_true]
              exact ⟨ht1, ht2, rfl, rfl, h5a⟩
            · obtain ⟨tt, htt⟩ := hsel1
              rw [htt]
              simp
            · obtain ⟨tt, htt⟩ := hsel2
              rw [htt]
              simp
            · simp
            · simp
            · simp
            · simp [h5m]
          · intro e herr
            rw [hDU] at herr
            exact absurd herr (by simp)

/-! ## Claim theorems -/

/-- C1: the object-store erasure step is claimed to list page by page until
no continuation token remains and delete every collected key, so that no
key with prefix `<subjectId>/` survives.  The code issues a single `list`
call and never consults the continuation token: on a namespace spanning two
listing pages (`pageSize = 1`, keys `u/a.png` and `u/b.png`), both the V2
step and V1 `deleteUserFolder` leave `u/b.png` behind — while V2 still
reports the step as `success` — whereas the spec-modelled paginated eraser
removes every key under the prefix. -/
theorem C1_pagination_bug :
    ((Impl2.deleteUserData "u" pagedWorld pagedStore).2.1.bucket.filter
        (fun k => jsStartsWith k "u/") = ["u/b.png"]) ∧
    (Impl2.deleteUserData "u" pagedWorld pagedStore).1.r2Folder = "success" ∧
    ((Impl1.deleteUserFolder pagedWorld "u" pagedStore).2.1.bucket.filter
        (fun k => jsStartsWith k "u/") = ["u/b.png"]) ∧
    (specEraseAll 1 pagedStore.bucket "u/").filter
        (fun k => jsStartsWith k "u/") = [] := by
  refine ⟨?_, ?_, ?_, ?_⟩ <;> rfl

/-- C10: in the V2 handler the JSON body is parsed before the bearer token
is verified, so every POST whose Authorization header carries the Bearer
scheme but whose body is malformed JSON gets a 500 from the catch-all —
with no token verification and no backend call at all — whatever the
token would have resolved to. -/
theorem C10_body_parsed_before_verify (h : String) (w : World) (s : Store)
    (hb : jsStartsWith h "Bearer " = true) :
    Impl2.fetch ⟨"POST", some h, Body.malformed⟩ w s = (500, s, []) := by
  unfold Impl2.fetch
  simp [hb]

/-- C10 witness: concrete malformed-body request under a world where no
token verifies. -/
theorem C10_witness :
    Impl2.fetch ⟨"POST", some "Bearer bad", Body.malformed⟩ plainWorld pagedStore =
      (500, pagedStore, []) :=
  C10_body_parsed_before_verify "Bearer bad" plainWorld pagedStore (by decide)

/-- C2 counterexample: the claim demands a 401 whenever the token does not
resolve to a live identity, but the V2 handler parses the body first: with
a Bearer header, a malformed JSON body and a token resolving to nothing,
the response is 500, not 401. -/
theorem C2_counterexample :
    plainWorld.tokenUser "bad" = none ∧
    (Impl2.fetch ⟨"POST", some "Bearer bad", Body.malformed⟩ plainWorld pagedStore).1 = 500 ∧
    (500 : Nat) ≠ 401 := by
  refine ⟨rfl, rfl, by decide⟩

/-- C2 (amended): for every POST without a valid bearer token the response
is 401 and no backend delete of any kind is issued — except in the V2
handler when the header carries the Bearer scheme but the JSON body is
malformed, where the response is 500 (the body is parsed before the token
is verified), still with no backend call.  The traces are pinned exactly:
empty, or the single read-only token verification. -/
theorem C2_amended_unauthenticated :
    (∀ (b : Body) (w : World) (s : Store),
        Impl1.fetch ⟨"POST", none, b⟩ w s = (Except.ok 401, s, []) ∧
        Impl2.fetch ⟨"POST", none, b⟩ w s = (401, s, [])) ∧
    (∀ (h : String) (b : Body) (w : World) (s : Store),
        jsStartsWith h "Bearer " = false →
        Impl1.fetch ⟨"POST", some h, b⟩ w s = (Except.ok 401, s, []) ∧
        Impl2.fetch ⟨"POST", some h, b⟩ w s = (401, s, [])) ∧
    (∀ (h : String) (b : Body) (w : World) (s : Store),
        jsStartsWith h "Bearer " = true →
        w.tokenUser (bearerToken h) = none →
        Impl1.fetch ⟨"POST", some h, b⟩ w s =
          (Except.ok 401, s, [Event.verifyTok (bearerToken h)]) ∧
        (b ≠ Body.malformed →
          Impl2.fetch ⟨"POST", some h, b⟩ w s =
            (401, s, [Event.verifyTok (bearerToken h)]))) ∧
    (∀ (h : String) (w : World) (s : Store),
        jsStartsWith h "Bearer " = true →
        Impl2.fetch ⟨"POST", some h, Body.malformed⟩ w s = (500, s, [])) := by
  refine ⟨?_, ?_, ?_, ?_⟩
  · intro b w s
    constructor <;> rfl
  · intro h b w s hb
    constructor
    · unfold Impl1.fetch
      simp [hb]
    · unfold Impl2.fetch
      simp [hb]
  · intro h b w s hb htok
    have hne : ¬(h = "") := by
      intro he
      rw [he] at hb
      exact absurd hb (by decide)
    constructor
    · unfold Impl1.fetch
      simp [hb, hne, htok]
    · intro hbody
      unfold Impl2.fetch
      cases b with
      | malformed => exact absurd rfl hbody
      | noUserId => simp [hb, htok]
      | userId uid => simp [hb, htok]
  · intro h w s hb
    unfold Impl2.fetch
    simp [hb]

/-- C2 amended-claim witness: concrete instances of each branch. -/
theorem C2_amended_witness :
    Impl1.fetch ⟨"POST", none, Body.userId "u"⟩ plainWorld pagedStore =
      (Except.ok 401, pagedStore, []) ∧
    Impl2.fetch ⟨"POST", some "Bearer bad", Body.userId "u"⟩ plainWorld pagedStore =
      (401, pagedStore, [Event.verifyTok "bad"]) ∧
    Impl2.fetch ⟨"POST", some "Bearer bad", Body.malformed⟩ plainWorld pagedStore =
      (500, pagedStore, []) := by
  refine ⟨(C2_amended_unauthenticated.1 (Body.userId "u") plainWorld pagedStore).1,
          ?_,
          C2_amended_unauthenticated.2.2.2 "Bearer bad" plainWorld pagedStore (by decide)⟩
  have h2 := (C2_amended_unauthenticated.2.2.1 "Bearer bad" (Body.userId "u")
      plainWorld pagedStore (by decide) rfl).2 (by decide)
  exact h2

/-- C3: for every authenticated POST whose body subject id, case-folded,
differs from the verified identity's id, case-folded, both handlers answer
403 and issue no deletion: the whole backend trace is the single read-only
token verification and the state is unchanged. -/
theorem C3_mismatch_forbidden (h uid vid : String) (w : World) (s : Store)
    (hb : jsStartsWith h "Bearer " = true)
    (htok : w.tokenUser (bearerToken h) = some vid)
    (hne : jsToLower uid ≠ jsToLower vid) :
    Impl1.fetch ⟨"POST", some h, Body.userId uid⟩ w s =
      (Except.ok 403, s, [Event.verifyTok (bearerToken h)]) ∧
    Impl2.fetch ⟨"POST", some h, Body.userId uid⟩ w s =
      (403, s, [Event.verifyTok (bearerToken h)]) ∧
    (([Event.verifyTok (bearerToken h)].all fun e => !e.isDeleteCall) = true) := by
  have hne0 : ¬(h = "") := by
    intro he
    rw [he] at hb
    exact absurd hb (by decide)
  refine ⟨?_, ?_, rfl⟩
  · unfold Impl1.fetch
    simp [hb, hne0, htok, hne]
  · unfold Impl2.fetch
    simp [hb, htok, hne]

/-- C3 witness: identity `u`, claimed subject `someone-else`. -/
theorem C3_witness :
    Impl1.fetch ⟨"POST", some "Bearer tok", Body.userId "someone-else"⟩ tokWorld emptyStore =
      (Except.ok 403, emptyStore, [Event.verifyTok "tok"]) ∧
    Impl2.fetch ⟨"POST", some "Bearer tok", Body.userId "someone-else"⟩ tokWorld emptyStore =
      (403, emptyStore, [Event.verifyTok "tok"]) := by
  have := C3_mismatch_forbidden "Bearer tok" "someone-else" "u" tokWorld emptyStore
    (by decide) rfl (by decide)
  exact ⟨this.1, this.2.1⟩

/-- C6 counterexample: the claim accepts every request whose body subject
id equals the identity id up to case folding, but the V1 handler's falsy
check `!user_id` rejects the empty subject id with 403 even when the
verified identity id is the (equal) empty string. -/
theorem C6_counterexample :
    emptyIdWorld.tokenUser "tok" = some "" ∧
    jsToLower "" = jsToLower "" ∧
    (Impl1.fetch ⟨"POST", some "Bearer tok", Body.userId ""⟩ emptyIdWorld emptyStore).1 =
      Except.ok 403 :=
  ⟨rfl, rfl, rfl⟩

/-- C6 (amended): for every POST whose body subject id is nonempty and
equals the verified identity's id up to case folding, both handlers accept
the request (neither 401 nor 403) and the deletion pipeline runs — V2
responds 200 and issues the predictions-table delete, V1 issues the
predictions-table fetch.  (The V1 handler rejects an empty subject id with
403 even when the identity id is also empty.) -/
theorem C6_casefold_accepted (h uid vid : String) (w : World) (s : Store)
    (hb : jsStartsWith h "Bearer " = true)
    (htok : w.tokenUser (bearerToken h) = some vid)
    (hne : uid ≠ "")
    (heq : jsToLower uid = jsToLower vid) :
    (Impl2.fetch ⟨"POST", some h, Body.userId uid⟩ w s).1 = 200 ∧
    Event.relDelete "replicate_predictions" (jsToLower uid) ∈
      (Impl2.fetch ⟨"POST", some h, Body.userId uid⟩ w s).2.2 ∧
    (Impl1.fetch ⟨"POST", some h, Body.userId uid⟩ w s).1 ≠ Except.ok 401 ∧
    (Impl1.fetch ⟨"POST", some h, Body.userId uid⟩ w s).1 ≠ Except.ok 403 ∧
    Event.relSelect "replicate_predictions" (jsToLower uid) ∈
      (Impl1.fetch ⟨"POST", some h, Body.userId uid⟩ w s).2.2 := by
  have hne0 : ¬(h = "") := by
    intro he
    rw [he] at hb
    exact absurd hb (by decide)
  have h2 : Impl2.fetch ⟨"POST", some h, Body.userId uid⟩ w s =
      (200, (Impl2.deleteUserData (jsToLower uid) w s).2.1,
       Event.verifyTok (bearerToken h) :: (Impl2.deleteUserData (jsToLower uid) w s).2.2) := by
    unfold Impl2.fetch
    simp [hb, htok, heq]
  have h1 : Impl1.fetch ⟨"POST", some h, Body.userId uid⟩ w s =
      (match (Impl1.deleteUserData (jsToLower uid) w s).1 with
       | Except.ok _ => (Except.ok 200, (Impl1.deleteUserData (jsToLower uid) w s).2.1,
           Event.verifyTok (bearerToken h) :: (Impl1.deleteUserData (jsToLower uid) w s).2.2)
       | Except.error _ => (Except.ok 500, (Impl1.deleteUserData (jsToLower uid) w s).2.1,
           Event.verifyTok (bearerToken h) :: (Impl1.deleteUserData (jsToLower uid) w s).2.2)) := by
    unfold Impl1.fetch
    simp [hb, hne0, htok, hne, heq]
  refine ⟨by rw [h2], ?_, ?_, ?_, ?_⟩
  · rw [h2]
    exact List.mem_cons_of_mem _ (deleteUserData2_pred_mem (jsToLower uid) w s)
  · rw [h1]
    cases hr : (Impl1.deleteUserData (jsToLower uid) w s).1 <;> simp
  · rw [h1]
    cases hr : (Impl1.deleteUserData (jsToLower uid) w s).1 <;> simp
  · rw [h1]
    cases hr : (Impl1.deleteUserData (jsToLower uid) w s).1 <;>
      exact List.mem_cons_of_mem _ (deleteUserData1_select_mem w (jsToLower uid) s)

/-- C6 amended-claim witness: body `ABC-123` against identity `abc-123`
(the spec's own example). -/
theorem C6_witness :
    (Impl2.fetch ⟨"POST", some "Bearer tok", Body.userId "ABC-123"⟩ caseWorld emptyStore).1 = 200 ∧
    (Impl1.fetch ⟨"POST", some "Bearer tok", Body.userId "ABC-123"⟩ caseWorld emptyStore).1 ≠
      Except.ok 403 := by
  have := C6_casefold_accepted "Bearer tok" "ABC-123" "abc-123" caseWorld emptyStore
    (by decide) rfl (by decide) (by decide)
  exact ⟨this.1, this.2.2.2.1⟩

/-- C8: whenever the listing call succeeds and returns zero keys for the
subject's prefix, the V2 pipeline records the R2 step as the distinct
"nothing to delete" annotation (`'no files found'`, not `'error'`), and the
V1 folder step completes without error, without any delete call and without
touching the store. -/
theorem C8_empty_listing (uid : String) (w : World) (s : Store)
    (hl : w.faults.r2List = false)
    (hk : s.bucket.filter (fun k => jsStartsWith k (uid ++ "/")) = []) :
    (Impl2.deleteUserData uid w s).1.r2Folder = "no files found" ∧
    Impl1.deleteUserFolder w uid s = (Except.ok (), s, [Event.r2List (uid ++ "/")]) := by
  constructor
  · unfold Impl2.deleteUserData
    dsimp only
    rw [r2Step_nothing w uid _ hl (by rw [relStage_bucket]; exact hk)]
  · unfold Impl1.deleteUserFolder bucketList
    simp [hl, hk]

/-- C8 witness: a bucket holding only foreign keys. -/
theorem C8_witness :
    (Impl2.deleteUserData "u" ⟨fun _ => none, noFault, 1000⟩
        ⟨[], [], [], [], [], ["other"], ["u"]⟩).1.r2Folder = "no files found" ∧
    Impl1.deleteUserFolder ⟨fun _ => none, noFault, 1000⟩ "u"
        ⟨[], [], [], [], [], ["other"], ["u"]⟩ =
      (Except.ok (), ⟨[], [], [], [], [], ["other"], ["u"]⟩, [Event.r2List "u/"]) :=
  C8_empty_listing "u" ⟨fun _ => none, noFault, 1000⟩
    ⟨[], [], [], [], [], ["other"], ["u"]⟩ rfl (by decide)

/-- C7: with healthy backends (whose delete calls, per spec §5, treat an
absent target as success), running the V2 erasure pipeline twice in
succession for the same subject yields a report whose every step is
Success or the "nothing to delete" annotation on both invocations: the
second run never fails merely because the first already removed the rows,
objects and identity record. -/
theorem C7_idempotent (uid : String) (pageSize : Nat) (s : Store) :
    (Impl2.deleteUserData uid ⟨fun _ => none, noFault, pageSize⟩ s).1.allOk ∧
    (Impl2.deleteUserData uid ⟨fun _ => none, noFault, pageSize⟩
        (Impl2.deleteUserData uid ⟨fun _ => none, noFault, pageSize⟩ s).2.1).1.allOk := by
  have key : ∀ t : Store,
      (Impl2.deleteUserData uid ⟨fun _ => none, noFault, pageSize⟩ t).1.allOk := by
    intro t
    unfold Impl2.deleteUserData Results.allOk
    refine ⟨Or.inl rfl, Or.inl rfl, Or.inl rfl, Or.inl rfl, Or.inl rfl, ?_, Or.inl rfl⟩
    exact r2Step_ok_noFault _ uid _ rfl rfl
  exact ⟨key s, key _⟩

/-- C4: in the V2 pipeline, whatever combination of backend failures
occurs, every step's backend call is still issued (the five relational
deletes, the R2 listing and the identity deletion all appear in the trace —
no failure alters the control flow of the other steps), and each failing
step is captured as a recorded `'error'` status instead of being re-thrown.
The final conjunct covers the V1 per-object helper of the cited lines
207-215: an R2 delete rejection is swallowed there as well. -/
theorem C4_step_isolation (uid : String) (w : World) (s : Store) :
    (Event.relDelete "replicate_predictions" uid ∈ (Impl2.deleteUserData uid w s).2.2 ∧
     Event.relDelete "replicate_trainings" uid ∈ (Impl2.deleteUserData uid w s).2.2 ∧
     Event.relDelete "push_tokens" uid ∈ (Impl2.deleteUserData uid w s).2.2 ∧
     Event.relDelete "user_credits" uid ∈ (Impl2.deleteUserData uid w s).2.2 ∧
     Event.relDelete "transactions" uid ∈ (Impl2.deleteUserData uid w s).2.2 ∧
     Event.r2List (uid ++ "/") ∈ (Impl2.deleteUserData uid w s).2.2 ∧
     Event.authDelete uid ∈ (Impl2.deleteUserData uid w s).2.2) ∧
    ((w.faults.predDelete = true → (Impl2.deleteUserData uid w s).1.predictions = "error") ∧
     (w.faults.trainDelete = true → (Impl2.deleteUserData uid w s).1.trainings = "error") ∧
     (w.faults.pushDelete = true → (Impl2.deleteUserData uid w s).1.pushToken = "error") ∧
     (w.faults.creditsDelete = true → (Impl2.deleteUserData uid w s).1.credits = "error") ∧
     (w.faults.transDelete = true → (Impl2.deleteUserData uid w s).1.transactions = "error") ∧
     (w.faults.r2List = true → (Impl2.deleteUserData uid w s).1.r2Folder = "error") ∧
     (w.faults.authDelete = true → (Impl2.deleteUserData uid w s).1.auth = "error")) ∧
    (∀ (url : String) (t : Store), (urlPathname url).isSome = true →
      (Impl1.deleteR2Object true url t).1 = Except.ok ()) := by
  refine ⟨⟨?_, ?_, ?_, ?_, ?_, ?_, ?_⟩, ⟨?_, ?_, ?_, ?_, ?_, ?_, ?_⟩, ?_⟩
  · unfold Impl2.deleteUserData
    simp
  · unfold Impl2.deleteUserData
    simp
  · unfold Impl2.deleteUserData
    simp
  · unfold Impl2.deleteUserData
    simp
  · unfold Impl2.deleteUserData
    simp
  · unfold Impl2.deleteUserData
    dsimp only
    obtain ⟨t, ht⟩ := r2Step_trace_head w uid (Impl2.relStage w.faults uid s)
    rw [ht]
    simp
  · unfold Impl2.deleteUserData
    simp
  · intro hp
    unfold Impl2.deleteUserData
    simp [hp]
  · intro hp
    unfold Impl2.deleteUserData
    simp [hp]
  · intro hp
    unfold Impl2.deleteUserData
    simp [hp]
  · intro hp
    unfold Impl2.deleteUserData
    simp [hp]
  · intro hp
    unfold Impl2.deleteUserData
    simp [hp]
  · intro hp
    unfold Impl2.deleteUserData Impl2.r2Step
    simp [hp]
  · intro hp
    unfold Impl2.deleteUserData
    simp [hp]
  · intro url t hu
    unfold Impl1.deleteR2Object
    cases hv : urlPathname url with
    | none => rw [hv] at hu; exact absurd hu (by decide)
    | some p => simp [hv]

/-- C4 witness: with only the predictions delete failing, the step is
recorded `'error'` while the identity deletion is still attempted; the V1
per-object delete with a rejecting bucket still completes. -/
theorem C4_witness :
    (Impl2.deleteUserData "u" predFaultWorld emptyStore).1.predictions = "error" ∧
    Event.authDelete "u" ∈ (Impl2.deleteUserData "u" predFaultWorld emptyStore).2.2 ∧
    (Impl1.deleteR2Object true "https://h/u/x.png" emptyStore).1 = Except.ok () := by
  have := C4_step_isolation "u" predFaultWorld emptyStore
  exact ⟨this.2.1.1 rfl, this.1.2.2.2.2.2.2,
         this.2.2 "https://h/u/x.png" emptyStore (by decide)⟩

/-- C5 counterexample: authentication and authorization succeed (token
`tok` resolves to identity `u`, the body claims `u`), yet the V1 handler
answers 500, not 200: the stored prediction's `input_url` `"not-a-url"`
makes `new URL` throw inside `deleteR2Object`, outside any per-step catch,
and the handler's own catch converts the escaped exception into 500. -/
theorem C5_counterexample :
    tokWorld.tokenUser "tok" = some "u" ∧
    (Impl1.fetch ⟨"POST", some "Bearer tok", Body.userId "u"⟩ tokWorld badUrlStore).1 =
      Except.ok 500 ∧
    (Impl1.fetch ⟨"POST", some "Bearer tok", Body.userId "u"⟩ tokWorld badUrlStore).1 ≠
      Except.ok 200 := by
  have h : (Impl1.fetch ⟨"POST", some "Bearer tok", Body.userId "u"⟩ tokWorld badUrlStore).1 =
      Except.ok 500 := rfl
  refine ⟨rfl, h, ?_⟩
  rw [h]
  simp

/-- C5 (amended): whenever authentication and authorization succeed, the V2
handler responds 200 regardless of how many deletion steps failed; the V1
handler responds 200 provided its pipeline raises no unhandled exception
(an unparseable stored asset URL escapes the step boundary and yields 500
instead). -/
theorem C5_status_200 (h uid vid : String) (w : World) (s : Store)
    (hb : jsStartsWith h "Bearer " = true)
    (htok : w.tokenUser (bearerToken h) = some vid)
    (heq : jsToLower uid = jsToLower vid) :
    (Impl2.fetch ⟨"POST", some h, Body.userId uid⟩ w s).1 = 200 ∧
    (uid ≠ "" → (Impl1.deleteUserData (jsToLower uid) w s).1 = Except.ok () →
      (Impl1.fetch ⟨"POST", some h, Body.userId uid⟩ w s).1 = Except.ok 200) := by
  have hne0 : ¬(h = "") := by
    intro he
    rw [he] at hb
    exact absurd hb (by decide)
  constructor
  · unfold Impl2.fetch
    simp [hb, htok, heq]
  · intro hne hok
    rw [heq] at hok
    unfold Impl1.fetch
    simp [hb, hne0, htok, hne, heq, hok]

/-- C5 amended-claim witness: an authorized request over an empty backend
gets 200 from both handlers. -/
theorem C5_witness :
    (Impl2.fetch ⟨"POST", some "Bearer tok", Body.userId "ABC-123"⟩ caseWorld emptyStore).1 = 200 ∧
    (Impl1.fetch ⟨"POST", some "Bearer tok", Body.userId "ABC-123"⟩ caseWorld emptyStore).1 =
      Except.ok 200 := by
  have := C5_status_200 "Bearer tok" "ABC-123" "abc-123" caseWorld emptyStore
    (by decide) rfl (by decide)
  exact ⟨this.1, this.2 (by decide) rfl⟩

/-- C9: in both pipelines the identity-provider record deletion is
attempted last: the V2 trace always ends with the auth deletion, preceded
by the five relational deletes and the object-store listing, with no other
identity-provider call; the V1 trace ends the same way on normal
completion, and when the pipeline aborts on a thrown exception the
identity provider was never called at all. -/
theorem C9_identity_deleted_last (uid : String) (w : World) (s : Store) :
    (∃ pre, (Impl2.deleteUserData uid w s).2.2 = pre ++ [Event.authDelete uid] ∧
       (pre.all (fun e => !e.isAuth)) = true ∧
       Event.relDelete "replicate_predictions" uid ∈ pre ∧
       Event.relDelete "replicate_trainings" uid ∈ pre ∧
       Event.relDelete "push_tokens" uid ∈ pre ∧
       Event.relDelete "user_credits" uid ∈ pre ∧
       Event.relDelete "transactions" uid ∈ pre ∧
       Event.r2List (uid ++ "/") ∈ pre) ∧
    ((Impl1.deleteUserData uid w s).1 = Except.ok () →
      ∃ pre, (Impl1.deleteUserData uid w s).2.2 = pre ++ [Event.authDelete uid] ∧
        (pre.all (fun e => !e.isAuth)) = true ∧
        Event.relSelect "replicate_predictions" uid ∈ pre ∧
        Event.relSelect "replicate_trainings" uid ∈ pre ∧
        Event.relDelete "push_tokens" uid ∈ pre ∧
        Event.relDelete "user_credits" uid ∈ pre ∧
        Event.relDelete "transactions" uid ∈ pre ∧
        Event.r2List (uid ++ "/") ∈ pre) ∧
    (∀ e, (Impl1.deleteUserData uid w s).1 = Except.error e →
      (((Impl1.deleteUserData uid w s).2.2).all (fun x => !x.isAuth)) = true) := by
  refine ⟨?_, (deleteUserData1_auth_last uid w s).1, (deleteUserData1_auth_last uid w s).2⟩
  unfold Impl2.deleteUserData
  dsimp only
  refine ⟨[Event.relDelete "replicate_predictions" uid,
           Event.relDelete "replicate_trainings" uid,
           Event.relDelete "push_tokens" uid,
           Event.relDelete "user_credits" uid,
           Event.relDelete "transactions" uid] ++
            (Impl2.r2Step w uid (Impl2.relStage w.faults uid s)).2.2,
         ?_, ?_, ?_, ?_, ?_, ?_, ?_, ?_⟩
  · simp [List.append_assoc]
  · rw [List.all_append]
    exact (Bool.and_eq_true _ _).mpr
      ⟨rfl, r2Step_noAuth w uid (Impl2.relStage w.faults uid s)⟩
  · simp
  · simp
  · simp
  · simp
  · simp
  · obtain ⟨t, ht⟩ := r2Step_trace_head w uid (Impl2.relStage w.faults uid s)
    rw [ht]
    simp

/-- C9 witness: the V2 pipeline on a concrete store ends with the identity
deletion, every other step's call coming before it. -/
theorem C9_witness :
    ∃ pre, (Impl2.deleteUserData "u" plainWorld pagedStore).2.2 =
        pre ++ [Event.authDelete "u"] ∧
      (pre.all (fun e => !e.isAuth)) = true ∧
      Event.relDelete "replicate_predictions" "u" ∈ pre ∧
      Event.relDelete "replicate_trainings" "u" ∈ pre ∧
      Event.relDelete "push_tokens" "u" ∈ pre ∧
      Event.relDelete "user_credits" "u" ∈ pre ∧
      Event.relDelete "transactions" "u" ∈ pre ∧
      Event.r2List "u/" ∈ pre :=
  (C9_identity_deleted_last "u" plainWorld pagedStore).1

end Worker
